import Mathlib

/-!
Verification of the ScrabbleTimer application core (src/App.tsx).

The embedding models the timer state machine, the localStorage
persistence (load / save / clear), the per-second tick scheduler,
the wake-lock controller, and the time-adjustment formula, directly
from the source of App.tsx.  JavaScript numbers are modelled as
exact rationals; JavaScript values that can appear in a parsed
localStorage record are modelled by an explicit value type with
JavaScript truthiness, since the load path applies the logical-or
fallback idiom to untyped parsed fields.
-/

namespace ScrabbleTimer

/-- The two players, from the union type on line 5 of App.tsx. -/
inductive Player where
  | player1 : Player
  | player2 : Player
deriving DecidableEq

/-- A JavaScript value as it can appear in a field of a parsed
localStorage record: a number (modelled as an exact rational),
a string, a boolean, or null. -/
inductive JsVal where
  | num (q : ℚ) : JsVal
  | str (s : String) : JsVal
  | jsBool (b : Bool) : JsVal
  | jsNull : JsVal
deriving DecidableEq

/-- JavaScript truthiness of a value: 0, the empty string, false and
null are falsy; everything else modelled here is truthy. -/
def truthy : JsVal → Bool
  | .num q => decide (q ≠ 0)
  | .str s => decide (s ≠ "")
  | .jsBool b => b
  | .jsNull => false

/-- The idiom `x || 0` applied to a possibly-missing field, as in
lines 55-56 of App.tsx: a missing or falsy field becomes the number 0,
a truthy field is kept as is. -/
def orZero : Option JsVal → JsVal
  | some v => if truthy v then v else .num 0
  | none => .num 0

/-- JavaScript addition of 1 to a value, as in `prev => prev + 1` on
lines 85 and 87 of App.tsx.  On numbers it adds one; on a string it
concatenates the character 1; booleans and null coerce to numbers. -/
def jsAdd1 : JsVal → JsVal
  | .num q => .num (q + 1)
  | .str s => .str (s ++ "1")
  | .jsBool b => .num ((if b then 1 else 0) + 1)
  | .jsNull => .num 1

/-- The component state of App.tsx (lines 41-43): the two elapsed-time
values and which player, if any, is active. -/
structure TimerState where
  player1Time : JsVal
  player2Time : JsVal
  activePlayer : Option Player
deriving DecidableEq

/-- The durable record stored under the key scrabbleTimerState, as the
load effect can encounter it: a string that is not valid JSON (parsing
throws), the JSON text null (parsing succeeds, destructuring throws),
or a parsed record with possibly-missing p1Time / p2Time fields. -/
inductive StoredRecord where
  | notJson : StoredRecord
  | jsNullRec : StoredRecord
  | record (p1Time p2Time : Option JsVal) : StoredRecord
deriving DecidableEq

/-- The load effect of App.tsx (lines 50-66), at the granularity of the
durable record: given the current store contents (none means the key is
absent), it returns the loaded pair of time values when the record is
usable, together with the store contents after the load.  A missing key
is skipped; a parse or destructuring failure is caught and the record
is removed; a parsed record is read through orZero and left in place. -/
def loadOp : Option StoredRecord → Option (JsVal × JsVal) × Option StoredRecord
  | none => (none, none)
  | some .notJson => (none, none)
  | some .jsNullRec => (none, none)
  | some (.record p1 p2) => (some (orZero p1, orZero p2), some (.record p1 p2))

/-- The elapsed-time values held by the component after the load effect
runs on a fresh mount: the loaded pair when the record was usable,
otherwise the initial zeros. -/
def loadTimes (st : Option StoredRecord) : JsVal × JsVal :=
  match (loadOp st).1 with
  | some p => p
  | none => (.num 0, .num 0)

/-- The store contents after the load effect runs. -/
def storeAfterLoad (st : Option StoredRecord) : Option StoredRecord :=
  (loadOp st).2

/-- The save effect of App.tsx (lines 69-76): the durable record is
overwritten with a record holding both present fields. -/
def saveStore (p1 p2 : JsVal) : Option StoredRecord :=
  some (.record (some p1) (some p2))

/-- The opponent of a tapped player, line 157 of App.tsx. -/
def opponent : Player → Player
  | .player1 => .player2
  | .player2 => .player1

/-- handlePlayerAreaClick (lines 155-159): tapping a side makes the
opponent of the tapped player active. -/
def handlePlayerAreaClick (tapped : Player) (s : TimerState) : TimerState :=
  { s with activePlayer := some (opponent tapped) }

/-- handlePause (lines 161-163): clears the active player. -/
def handlePause (s : TimerState) : TimerState :=
  { s with activePlayer := none }

/-- The tick callback of the timer effect (lines 82-90): increments the
time of the active player; does nothing when no player is active. -/
def tick (s : TimerState) : TimerState :=
  match s.activePlayer with
  | some .player1 => { s with player1Time := jsAdd1 s.player1Time }
  | some .player2 => { s with player2Time := jsAdd1 s.player2Time }
  | none => s

/-- Whether the repeating interval of the timer effect exists (line 82):
it is created exactly when a player is active, and the effect cleanup
clears it whenever the active player changes. -/
def tickEnabled (s : TimerState) : Bool :=
  s.activePlayer.isSome

/-- The whole system: the component state together with the durable
store contents. -/
structure Sys where
  clock : TimerState
  store : Option StoredRecord
deriving DecidableEq

/-- A fresh mount of the component: times start at 0, the load effect
reads the store, and the active player is set to none unconditionally
(line 64 of App.tsx). -/
def mount (st : Option StoredRecord) : Sys :=
  { clock := { player1Time := (loadTimes st).1
               player2Time := (loadTimes st).2
               activePlayer := none }
    store := storeAfterLoad st }

/-- handleReset (lines 165-170): clears the active player, zeroes both
times, and removes the durable record. -/
def handleReset (_s : Sys) : Sys :=
  { clock := { player1Time := .num 0, player2Time := .num 0, activePlayer := none }
    store := none }

/-- The events the mounted component reacts to: a tap on a player area,
the pause button, the reset button, and a scheduler tick. -/
inductive Ev where
  | tap (p : Player) : Ev
  | pauseE : Ev
  | resetE : Ev
  | tickE : Ev
deriving DecidableEq

/-- One step of the mounted system.  Taps and pause only change the
active player; reset runs handleReset; a tick fires only while the
interval exists, increments the active player and is followed by the
save effect writing both times. -/
def stepEv (s : Sys) (e : Ev) : Sys :=
  match e with
  | .tap p => { s with clock := handlePlayerAreaClick p s.clock }
  | .pauseE => { s with clock := handlePause s.clock }
  | .resetE => handleReset s
  | .tickE =>
      if tickEnabled s.clock then
        let c := tick s.clock
        { clock := c, store := saveStore c.player1Time c.player2Time }
      else s

/-- The system state reached from a fresh mount over given store
contents by a sequence of events. -/
def reach (st : Option StoredRecord) (evs : List Ev) : Sys :=
  evs.foldl stepEv (mount st)

/-- A time value that is a non-negative integer, as the data-model
invariant demands. -/
def natTime (v : JsVal) : Prop :=
  ∃ n : ℕ, v = .num (n : ℚ)

/-- Both elapsed-time values are non-negative integers. -/
def clockWellFormed (c : TimerState) : Prop :=
  natTime c.player1Time ∧ natTime c.player2Time

/-- Store contents whose record, if readable, yields non-negative
integer times through orZero. -/
def storeWF : Option StoredRecord → Prop
  | some (.record p1 p2) => natTime (orZero p1) ∧ natTime (orZero p2)
  | _ => True

/-- The numeric reading of a time value; non-numbers read as 0. -/
def toQ : JsVal → ℚ
  | .num q => q
  | _ => 0

/-- The wake-lock sentinel as App.tsx uses it: only its released flag
is consulted. -/
structure Sentinel where
  released : Bool
deriving DecidableEq

/-- requestWakeLock (lines 106-123): a new lock is requested only when
no sentinel is held or the held one is already released; the Bool
records whether a platform request was made. -/
def requestWakeLock : Option Sentinel → Option Sentinel × Bool
  | none => (some { released := false }, true)
  | some s => if s.released then (some { released := false }, true) else (some s, false)

/-- releaseWakeLock (lines 125-130): the held sentinel is released and
dropped only when one is held and not yet released; the Bool records
whether a platform release was made. -/
def releaseWakeLock : Option Sentinel → Option Sentinel × Bool
  | none => (none, false)
  | some s => if s.released then (some s, false) else (none, true)

/-- player1Adjustment (line 178 of App.tsx). -/
def player1Adjustment (p1 p2 : ℚ) : ℚ :=
  if p1 + p2 > 0 then (2 * p2) / (p1 + p2) else 1

/-- player2Adjustment (line 179 of App.tsx). -/
def player2Adjustment (p1 p2 : ℚ) : ℚ :=
  if p1 + p2 > 0 then (2 * p1) / (p1 + p2) else 1

/-! ## Helper lemmas -/

/-- For any rational q, the orZero fallback keeps a present numeric
field: a falsy number can only be 0, which the fallback also yields. -/
theorem orZero_some_num (q : ℚ) : orZero (some (.num q)) = .num q := by
  by_cases h : q = 0 <;> simp [orZero, truthy, h]

/-- jsAdd1 sends a non-negative integer time to a non-negative integer
time. -/
theorem natTime_jsAdd1 {v : JsVal} (h : natTime v) : natTime (jsAdd1 v) := by
  obtain ⟨n, rfl⟩ := h
  exact ⟨n + 1, by simp [jsAdd1]⟩

/-- jsAdd1 never lowers the numeric reading of a value. -/
theorem toQ_le_jsAdd1 (v : JsVal) : toQ v ≤ toQ (jsAdd1 v) := by
  cases v with
  | num q => simp [jsAdd1, toQ]
  | str s => simp [jsAdd1, toQ]
  | jsBool b => cases b <;> norm_num [jsAdd1, toQ]
  | jsNull => norm_num [jsAdd1, toQ]

/-- One step keeps both times non-negative integers. -/
theorem clockWellFormed_stepEv (s : Sys) (e : Ev)
    (h : clockWellFormed s.clock) : clockWellFormed (stepEv s e).clock := by
  obtain ⟨h1, h2⟩ := h
  cases e with
  | tap p => exact ⟨h1, h2⟩
  | pauseE => exact ⟨h1, h2⟩
  | resetE =>
      exact ⟨⟨0, by simp [stepEv, handleReset]⟩,
             ⟨0, by simp [stepEv, handleReset]⟩⟩
  | tickE =>
      by_cases hen : tickEnabled s.clock
      · simp only [stepEv, hen, if_pos]
        unfold tick
        match hap : s.clock.activePlayer with
        | some .player1 => exact ⟨natTime_jsAdd1 h1, h2⟩
        | some .player2 => exact ⟨h1, natTime_jsAdd1 h2⟩
        | none => exact ⟨h1, h2⟩
      · simp only [stepEv, hen, if_neg, Bool.false_eq_true, not_false_eq_true]
        exact ⟨h1, h2⟩

/-- Folding any event list preserves well-formedness of the clock. -/
theorem clockWellFormed_foldl (evs : List Ev) :
    ∀ s : Sys, clockWellFormed s.clock →
      clockWellFormed (evs.foldl stepEv s).clock := by
  induction evs with
  | nil => intro s h; exact h
  | cons e rest ih =>
      intro s h
      exact ih (stepEv s e) (clockWellFormed_stepEv s e h)

/-- A mount over well-formed store contents yields a well-formed
clock. -/
theorem clockWellFormed_mount (st : Option StoredRecord) (h : storeWF st) :
    clockWellFormed (mount st).clock := by
  cases st with
  | none =>
      exact ⟨⟨0, by simp [mount, loadTimes, loadOp]⟩,
             ⟨0, by simp [mount, loadTimes, loadOp]⟩⟩
  | some r =>
      cases r with
      | notJson =>
          exact ⟨⟨0, by simp [mount, loadTimes, loadOp]⟩,
                 ⟨0, by simp [mount, loadTimes, loadOp]⟩⟩
      | jsNullRec =>
          exact ⟨⟨0, by simp [mount, loadTimes, loadOp]⟩,
                 ⟨0, by simp [mount, loadTimes, loadOp]⟩⟩
      | record p1 p2 =>
          obtain ⟨h1, h2⟩ := h
          exact ⟨h1, h2⟩

/-- Every reachable state over well-formed store contents has a
well-formed clock. -/
theorem clockWellFormed_reach (st : Option StoredRecord) (h : storeWF st)
    (evs : List Ev) : clockWellFormed (reach st evs).clock :=
  clockWellFormed_foldl evs (mount st) (clockWellFormed_mount st h)

/-- Any step other than reset never lowers either numeric time
reading. -/
theorem toQ_mono_stepEv (s : Sys) (e : Ev) (he : e ≠ .resetE) :
    toQ s.clock.player1Time ≤ toQ (stepEv s e).clock.player1Time ∧
    toQ s.clock.player2Time ≤ toQ (stepEv s e).clock.player2Time := by
  cases e with
  | tap p => exact ⟨le_refl _, le_refl _⟩
  | pauseE => exact ⟨le_refl _, le_refl _⟩
  | resetE => exact absurd rfl he
  | tickE =>
      by_cases hen : tickEnabled s.clock
      · simp only [stepEv, hen, if_pos]
        unfold tick
        match hap : s.clock.activePlayer with
        | some .player1 => exact ⟨toQ_le_jsAdd1 _, le_refl _⟩
        | some .player2 => exact ⟨le_refl _, toQ_le_jsAdd1 _⟩
        | none => exact ⟨le_refl _, le_refl _⟩
      · simp only [stepEv, hen, if_neg, Bool.false_eq_true, not_false_eq_true]
        exact ⟨le_refl _, le_refl _⟩

/-! ## Claim theorems -/

/-- Claim C1: for every tapped player and every current state
(active, paused or otherwise), the switch-turn handler sets the active
player to the opponent of the tapped player, never the tapped player
itself, and it is total (never fails). -/
theorem claim_C1_switchTurn (tapped : Player) (s : TimerState) :
    (handlePlayerAreaClick tapped s).activePlayer = some (opponent tapped) ∧
    opponent tapped ≠ tapped := by
  refine ⟨rfl, ?_⟩
  cases tapped <;> simp [opponent]

/-- Claim C2: while a player is active, one tick adds exactly 1 to
that player and leaves the other player unchanged; while no player is
active the repeating interval does not exist, a tick is a no-op on the
clock, and the system step for a tick changes nothing. -/
theorem claim_C2_tick (s : TimerState) :
    (∀ n : ℚ, s.activePlayer = some .player1 → s.player1Time = .num n →
      (tick s).player1Time = .num (n + 1) ∧
      (tick s).player2Time = s.player2Time) ∧
    (∀ n : ℚ, s.activePlayer = some .player2 → s.player2Time = .num n →
      (tick s).player2Time = .num (n + 1) ∧
      (tick s).player1Time = s.player1Time) ∧
    (s.activePlayer = none →
      tickEnabled s = false ∧ tick s = s ∧
      ∀ st : Option StoredRecord, stepEv ⟨s, st⟩ .tickE = ⟨s, st⟩) := by
  refine ⟨?_, ?_, ?_⟩
  · intro n h1 h2
    simp [tick, h1, h2, jsAdd1]
  · intro n h1 h2
    simp [tick, h1, h2, jsAdd1]
  · intro h
    have hen : tickEnabled s = false := by simp [tickEnabled, h]
    exact ⟨hen, by simp [tick, h], fun st => by simp [stepEv, hen]⟩

/-- Claim C2 witness: in a concrete state with player1 active at 3
seconds and player2 at 7, a tick yields 4 and 7; in the paused state
the interval is absent and the step is the identity. -/
theorem claim_C2_tick_witness :
    (tick ⟨.num 3, .num 7, some .player1⟩).player1Time = .num 4 ∧
    (tick ⟨.num 3, .num 7, some .player1⟩).player2Time = .num 7 ∧
    tickEnabled ⟨.num 3, .num 7, none⟩ = false := by
  have h1 := (claim_C2_tick ⟨.num 3, .num 7, some .player1⟩).1 3 rfl rfl
  have h2 := ((claim_C2_tick ⟨.num 3, .num 7, none⟩).2.2 rfl).1
  refine ⟨?_, ?_, h2⟩
  · rw [h1.1]; norm_num
  · rw [h1.2]

/-- Claim C3: reset always yields both times 0 and no active player,
and it removes the durable record, so that a subsequent load with no
intervening save finds the key absent (no readable snapshot), not a
record of zeros. -/
theorem claim_C3_reset (s : Sys) :
    (handleReset s).clock.player1Time = .num 0 ∧
    (handleReset s).clock.player2Time = .num 0 ∧
    (handleReset s).clock.activePlayer = none ∧
    (handleReset s).store = none ∧
    (loadOp (handleReset s).store).1 = none := by
  refine ⟨rfl, rfl, rfl, rfl, rfl⟩

/-- Claim C6: saving times (a, b) for non-negative integers a, b and
then loading with no intervening operation on the record returns
exactly (a, b). -/
theorem claim_C6_roundTrip (a b : ℕ) :
    (loadOp (saveStore (.num a) (.num b))).1 =
      some (.num (a : ℚ), .num (b : ℚ)) := by
  simp [saveStore, loadOp, orZero_some_num]

/-- Claim C7: a fresh mount always starts with no active player, over
any store contents; with the persisted record holding p1Time 12 and
p2Time 7 the times are restored to (12, 7) while the game still starts
paused. -/
theorem claim_C7_startPaused (st : Option StoredRecord) :
    (mount st).clock.activePlayer = none ∧
    (mount (some (.record (some (.num 12)) (some (.num 7))))).clock.player1Time
      = .num 12 ∧
    (mount (some (.record (some (.num 12)) (some (.num 7))))).clock.player2Time
      = .num 7 := by
  refine ⟨rfl, ?_, ?_⟩ <;>
    simp [mount, loadTimes, loadOp, storeAfterLoad, orZero_some_num]

/-- Claim C8: the time-adjustment formula yields 1.50 and 0.50 at
elapsed times (30, 90), and both adjustments are 1.00 when both times
are 0 (the computation is defined, with no division by zero). -/
theorem claim_C8_adjustment :
    player1Adjustment 30 90 = 3 / 2 ∧
    player2Adjustment 30 90 = 1 / 2 ∧
    player1Adjustment 0 0 = 1 ∧
    player2Adjustment 0 0 = 1 := by
  refine ⟨?_, ?_, ?_, ?_⟩ <;> norm_num [player1Adjustment, player2Adjustment]

/-- Claim C9: the wake-lock controller never double-acquires: an
acquire attempt is skipped (no platform request, state unchanged)
whenever a sentinel is held and not released; and a release performed
when nothing is held, or when the held sentinel is already released,
is a no-op. -/
theorem claim_C9_wakeLock (r : Option Sentinel) :
    (∀ s : Sentinel, r = some s → s.released = false →
      requestWakeLock r = (r, false)) ∧
    (r = none → releaseWakeLock r = (r, false)) ∧
    (∀ s : Sentinel, r = some s → s.released = true →
      releaseWakeLock r = (r, false)) := by
  refine ⟨?_, ?_, ?_⟩
  · intro s hr hrel
    subst hr
    simp [requestWakeLock, hrel]
  · intro hr
    subst hr
    rfl
  · intro s hr hrel
    subst hr
    simp [releaseWakeLock, hrel]

/-- Claim C9 witness: with a held unreleased sentinel the acquire is
skipped; with nothing held, and with a held but already-released
sentinel, the release is a no-op. -/
theorem claim_C9_wakeLock_witness :
    requestWakeLock (some ⟨false⟩) = (some ⟨false⟩, false) ∧
    releaseWakeLock (none : Option Sentinel) = (none, false) ∧
    releaseWakeLock (some ⟨true⟩) = (some ⟨true⟩, false) :=
  ⟨(claim_C9_wakeLock (some ⟨false⟩)).1 ⟨false⟩ rfl rfl,
   (claim_C9_wakeLock none).2.1 rfl,
   (claim_C9_wakeLock (some ⟨true⟩)).2.2 ⟨true⟩ rfl rfl⟩

/-- Claim C4 counterexample: a durable record whose p1Time field is the
truthy non-numeric value given by the string a parses without error,
yet the load neither falls back to (0, 0) nor erases the record: the
string is loaded as is and the record stays in the store, contrary to
the claim that such records are treated as absent and erased. -/
theorem claim_C4_counterexample :
    loadTimes (some (.record (some (.str "a")) (some (.num 7)))) ≠
      (.num 0, .num 0) ∧
    storeAfterLoad (some (.record (some (.str "a")) (some (.num 7)))) ≠
      none := by
  refine ⟨?_, ?_⟩ <;> simp [loadTimes, loadOp, storeAfterLoad, orZero, truthy]

/-- Claim C4 (amended): a missing record is treated as absent with
nothing to erase; a record that fails to parse, or parses to null so
that destructuring throws, raises no error out of the core, is erased,
and yields times (0, 0); a record that parses to an object is kept in
the store, and each field that is missing or falsy yields 0 while each
truthy field value, numeric or not, is loaded as is. -/
theorem claim_C4_load_amended :
    loadOp none = (none, none) ∧
    loadOp (some .notJson) = (none, none) ∧
    loadOp (some .jsNullRec) = (none, none) ∧
    (∀ p1 p2 : Option JsVal,
      loadOp (some (.record p1 p2)) =
        (some (orZero p1, orZero p2), some (.record p1 p2))) ∧
    orZero none = .num 0 ∧
    (∀ v : JsVal, truthy v = false → orZero (some v) = .num 0) ∧
    (∀ v : JsVal, truthy v = true → orZero (some v) = v) := by
  refine ⟨rfl, rfl, rfl, fun p1 p2 => rfl, rfl, ?_, ?_⟩
  · intro v hv
    simp [orZero, hv]
  · intro v hv
    simp [orZero, hv]

/-- Claim C4 witness: the empty string is falsy and loads as 0, while
the number 7 is truthy and loads as itself. -/
theorem claim_C4_load_amended_witness :
    orZero (some (.str "")) = .num 0 ∧ orZero (some (.num 7)) = .num 7 :=
  ⟨claim_C4_load_amended.2.2.2.2.2.1 (.str "") rfl,
   claim_C4_load_amended.2.2.2.2.2.2 (.num 7) (by simp [truthy])⟩

/-- Claim C5 counterexample: the load path does not validate the stored
numbers, so over store contents holding p1Time equal to minus five the
freshly mounted state already violates the invariant that both elapsed
values are non-negative integers. -/
theorem claim_C5_counterexample :
    ¬ clockWellFormed
        (reach (some (.record (some (.num (-5))) (some (.num 3)))) []).clock := by
  intro h
  obtain ⟨⟨n, hn⟩, -⟩ := h
  have hv : (reach (some (.record (some (.num (-5))) (some (.num 3))))
      []).clock.player1Time = .num (-5) := by
    simp [reach, mount, loadTimes, loadOp, orZero_some_num]
  rw [hv] at hn
  have h5 : (-5 : ℚ) = (n : ℚ) := by
    simpa using hn
  have h0 : (0 : ℚ) ≤ (n : ℚ) := Nat.cast_nonneg n
  linarith

/-- Claim C5 (amended): over store contents whose readable fields are
non-negative integers, every state reachable from a fresh mount by any
sequence of taps, pauses, resets and ticks has both elapsed values
non-negative integers, has at most one active player, and no event
other than reset lowers either elapsed value, while reset sets both to
zero. -/
theorem claim_C5_invariant_amended (st : Option StoredRecord)
    (hWF : storeWF st) (evs : List Ev) (e : Ev) (he : e ≠ .resetE) :
    clockWellFormed (reach st evs).clock ∧
    (∀ p q : Player, (reach st evs).clock.activePlayer = some p →
      (reach st evs).clock.activePlayer = some q → p = q) ∧
    toQ (reach st evs).clock.player1Time ≤
      toQ (stepEv (reach st evs) e).clock.player1Time ∧
    toQ (reach st evs).clock.player2Time ≤
      toQ (stepEv (reach st evs) e).clock.player2Time ∧
    (stepEv (reach st evs) .resetE).clock.player1Time = .num 0 ∧
    (stepEv (reach st evs) .resetE).clock.player2Time = .num 0 := by
  refine ⟨clockWellFormed_reach st hWF evs, ?_,
    (toQ_mono_stepEv _ e he).1, (toQ_mono_stepEv _ e he).2, rfl, rfl⟩
  intro p q hp hq
  rw [hp] at hq
  exact Option.some.inj hq

/-- Claim C5 witness: from an absent store, after a tap on player1 and
one tick, the clock is well formed, a pause does not lower the first
elapsed value, and a reset zeroes it. -/
theorem claim_C5_invariant_amended_witness :
    clockWellFormed (reach none [Ev.tap .player1, Ev.tickE]).clock ∧
    toQ (reach none [Ev.tap .player1, Ev.tickE]).clock.player1Time ≤
      toQ (stepEv (reach none [Ev.tap .player1, Ev.tickE])
        .pauseE).clock.player1Time ∧
    (stepEv (reach none [Ev.tap .player1, Ev.tickE])
        .resetE).clock.player1Time = .num 0 := by
  have h := claim_C5_invariant_amended none trivial
    [Ev.tap .player1, Ev.tickE] .pauseE (by decide)
  exact ⟨h.1, h.2.2.1, h.2.2.2.2.1⟩

/-- Claim C10: for every state, pause and switch-turn (for either
tapped player) leave both elapsed-time values unchanged; they modify
only the active player. -/
theorem claim_C10_frame (s : TimerState) (p : Player) :
    (handlePause s).player1Time = s.player1Time ∧
    (handlePause s).player2Time = s.player2Time ∧
    (handlePlayerAreaClick p s).player1Time = s.player1Time ∧
    (handlePlayerAreaClick p s).player2Time = s.player2Time :=
  ⟨rfl, rfl, rfl, rfl⟩

end ScrabbleTimer
